import Mathlib

/-!
Shallow embedding of `src/discriminator.py`: the multi-scale discriminator
ensemble (`DiscriminatorMultiScales`), the PQMF band discriminator
(`DiscriminatorEBEN`) and the full-band MelGAN discriminator
(`DiscriminatorMelGAN`), together with the `normalized_conv1d` helper.

The embedding has two levels:
* a shape level (`Shape`, `forwardShapes`, `forwardOk`) computing the
  (batch, channels, time) geometry of every tensor in the returned embedding
  sequences, using PyTorch's documented output-length formula for `Conv1d`
  and `ReflectionPad1d`;
* a value level (`Tensor3`, `conv3`, `discForward`, and a store-based variant
  `discSt` that makes the in-place `LeakyReLU` mutation explicit),
  computing actual tensor values over `ℚ` given the per-layer weights.
  `normalized_conv1d` wraps `nn.Conv1d` in a weight-norm reparameterization;
  its forward pass is an ordinary convolution with the effective weight
  `g * v / |v|`, so the value model takes the effective weight tensor as the
  layer's parameter (the claims quantify over all weight settings).
-/

/-- Static configuration of one `nn.Conv1d` layer. -/
structure ConvSpec where
  inC : Nat
  outC : Nat
  kernel : Nat
  stride : Nat
  padding : Nat
  dilation : Nat
  groups : Nat
deriving DecidableEq, Repr

/-- PyTorch `Conv1d` output length: `(L + 2*padding - dilation*(kernel-1) - 1) / stride + 1`
(floor division; validity below guarantees the numerator is nonnegative, where
this matches truncated `Nat` subtraction and division). -/
def convOutLen (c : ConvSpec) (L : Nat) : Nat :=
  (L + 2 * c.padding - (c.dilation * (c.kernel - 1) + 1)) / c.stride + 1

/-- Construction-time validity of a `Conv1d` (checked in `nn.Conv1d.__init__`):
`groups` is positive and divides both `in_channels` and `out_channels`. -/
def convConstructs (c : ConvSpec) : Bool :=
  decide (0 < c.groups) && decide (c.inC % c.groups = 0) && decide (c.outC % c.groups = 0)

/-- One block of a discriminator stack: an optional `ReflectionPad1d`,
a `normalized_conv1d`, and optionally a `LeakyReLU(0.2, inplace=True)`. -/
structure BlockSpec where
  pad : Option Nat
  conv : ConvSpec
  act : Bool
deriving DecidableEq, Repr

/-- Shape of a 3-D signal tensor (batch, channel, time). -/
structure Shape where
  batch : Nat
  channels : Nat
  len : Nat
deriving DecidableEq, Repr

/-- Temporal length after a block's optional reflection padding. -/
def padLen (bl : BlockSpec) (L : Nat) : Nat :=
  match bl.pad with
  | some n => L + 2 * n
  | none => L

/-- Output shape of one block: padding adds `2n` samples, the convolution
maps channels `inC → outC` and the temporal length by `convOutLen`; the
activation preserves shape. -/
def blockOut (bl : BlockSpec) (sh : Shape) : Shape :=
  ⟨sh.batch, bl.conv.outC, convOutLen bl.conv (padLen bl sh.len)⟩

/-- Run-time validity of one block at input shape `sh`:
`ReflectionPad1d` requires the padding to be smaller than the input length,
and `Conv1d` requires the input channel count to equal `in_channels` and the
computed output length to be positive (equivalently, the padded length to
cover the dilated kernel). -/
def blockOk (bl : BlockSpec) (sh : Shape) : Bool :=
  (match bl.pad with
   | some n => decide (n < sh.len)
   | none => true) &&
  decide (sh.channels = bl.conv.inC) &&
  decide (bl.conv.dilation * (bl.conv.kernel - 1) + 1 ≤ padLen bl sh.len + 2 * bl.conv.padding)

/-- Shapes of the embedding sequence returned by `forward`: the input shape
followed by each block's output shape, feeding each block the previous
result (`embeddings.append(module(embeddings[-1]))`). -/
def forwardShapes : List BlockSpec → Shape → List Shape
  | [], sh => [sh]
  | bl :: rest, sh => sh :: forwardShapes rest (blockOut bl sh)

/-- All blocks are run-time valid along the forward pass. -/
def forwardOk : List BlockSpec → Shape → Bool
  | [], _ => true
  | bl :: rest, sh => blockOk bl sh && forwardOk rest (blockOut bl sh)

/-- The eight blocks of `DiscriminatorEBEN.__init__` (band discriminator),
parameterized by `q` and `dilation` exactly as in the source. -/
def bandBlocks (q dilation : Nat) : List BlockSpec :=
  [ ⟨some 1, ⟨q, 80, 3, 1, 1, dilation, q⟩, true⟩,
    ⟨none, ⟨80, 160, 7, 2, 3, dilation, q⟩, true⟩,
    ⟨none, ⟨160, 320, 7, 2, 3, dilation, q⟩, true⟩,
    ⟨none, ⟨320, 480, 7, 2, 3, dilation, q⟩, true⟩,
    ⟨none, ⟨480, 640, 7, 2, 3, dilation, q⟩, true⟩,
    ⟨none, ⟨640, 960, 7, 2, 3, dilation, q⟩, true⟩,
    ⟨none, ⟨960, 960, 5, 1, 2, dilation, q⟩, true⟩,
    ⟨none, ⟨960, 1, 3, 1, 1, 1, 1⟩, false⟩ ]

/-- The seven blocks of `DiscriminatorMelGAN.__init__` (full-band
discriminator), exactly as in the source (`Conv1d` defaults: padding 0,
dilation 1, groups 1 where not given). -/
def melganBlocks : List BlockSpec :=
  [ ⟨some 7, ⟨1, 16, 15, 1, 0, 1, 1⟩, true⟩,
    ⟨none, ⟨16, 64, 41, 4, 20, 1, 4⟩, true⟩,
    ⟨none, ⟨64, 256, 41, 4, 20, 1, 4⟩, true⟩,
    ⟨none, ⟨256, 1024, 41, 4, 20, 1, 4⟩, true⟩,
    ⟨none, ⟨1024, 1024, 41, 4, 20, 1, 4⟩, true⟩,
    ⟨none, ⟨1024, 1024, 5, 1, 2, 1, 1⟩, true⟩,
    ⟨none, ⟨1024, 1, 3, 1, 1, 1, 1⟩, false⟩ ]

/-- Shapes of `DiscriminatorEBEN.forward`'s embedding sequence. -/
def bandShapes (q dilation : Nat) (sh : Shape) : List Shape :=
  forwardShapes (bandBlocks q dilation) sh

/-- Run-time validity of `DiscriminatorEBEN.forward` at input shape `sh`. -/
def bandOk (q dilation : Nat) (sh : Shape) : Bool :=
  forwardOk (bandBlocks q dilation) sh

/-- Shapes of `DiscriminatorMelGAN.forward`'s embedding sequence. -/
def melganShapes (sh : Shape) : List Shape :=
  forwardShapes melganBlocks sh

/-- Run-time validity of `DiscriminatorMelGAN.forward` at input shape `sh`. -/
def melganOk (sh : Shape) : Bool :=
  forwardOk melganBlocks sh

/-- Shapes of the four embedding sequences returned by
`DiscriminatorMultiScales.forward`: the three band discriminators
(dilation 1, 2, 3) applied to `bands`, then the MelGAN discriminator
applied to `audio`. -/
def ensembleShapes (q : Nat) (bands audio : Shape) : List (List Shape) :=
  [bandShapes q 1 bands, bandShapes q 2 bands, bandShapes q 3 bands, melganShapes audio]

/-- `DiscriminatorEBEN` constructs without error: every `nn.Conv1d` in its
stack passes the construction-time group checks. -/
def bandConstructs (q dilation : Nat) : Bool :=
  (bandBlocks q dilation).all (fun bl => convConstructs bl.conv)

/-- `DiscriminatorMelGAN` constructs without error. -/
def melganConstructs : Bool :=
  melganBlocks.all (fun bl => convConstructs bl.conv)

/-- `DiscriminatorMultiScales.__init__` constructs the three band
discriminators (dilation 1, 2, 3) and the MelGAN discriminator. -/
def ensembleConstructs (q : Nat) : Bool :=
  bandConstructs q 1 && bandConstructs q 2 && bandConstructs q 3 && melganConstructs

/-! ### Value-level model -/

/-- A 1-D signal (time axis) over exact rationals. -/
abbrev Tensor1 := List ℚ

/-- A (channel × time) slice. -/
abbrev Tensor2 := List (List ℚ)

/-- A (batch × channel × time) tensor. -/
abbrev Tensor3 := List (List (List ℚ))

/-- `nn.ReflectionPad1d(n)` on one channel: output index `t < n` reads input
index `n - t`, the middle copies the input, and the right side reflects
without repeating the edge sample. -/
def reflectPad1 (n : Nat) (xs : Tensor1) : Tensor1 :=
  ((List.range n).map fun i => xs.getD (n - i) 0) ++ xs ++
    ((List.range n).map fun i => xs.getD (xs.length - 2 - i) 0)

/-- Reflection padding applied per batch and channel. -/
def reflectPad3 (n : Nat) (x : Tensor3) : Tensor3 :=
  x.map fun ch => ch.map (reflectPad1 n)

/-- Zero padding on both temporal ends (the `padding` of `Conv1d`). -/
def zeroPad1 (p : Nat) (xs : Tensor1) : Tensor1 :=
  List.replicate p 0 ++ xs ++ List.replicate p 0

/-- Effective parameters of one `normalized_conv1d` layer: weight-norm stores
magnitude and direction, whose product is an ordinary weight tensor of shape
`outC × (inC / groups) × kernel`, plus a bias per output channel. -/
structure ConvParams where
  weight : List Tensor2
  bias : Tensor1
deriving DecidableEq, Repr

/-- `Conv1d` on one batch element: zero-pad each channel, then for each output
channel `oc` (belonging to channel group `oc / (outC/groups)`) and each output
position `t`, sum `weight[oc][ic][j] * x[group ics][t*stride + j*dilation]`
over the group's input channels and kernel taps, plus the bias. -/
def convBatch (c : ConvSpec) (p : ConvParams) (x : Tensor2) : Tensor2 :=
  let xp := x.map (zeroPad1 c.padding)
  let Lout := convOutLen c (x.headD []).length
  let icg := c.inC / c.groups
  let ocg := c.outC / c.groups
  (List.range c.outC).map fun oc =>
    let w := p.weight.getD oc []
    let xg := (xp.drop (oc / ocg * icg)).take icg
    (List.range Lout).map fun t =>
      p.bias.getD oc 0 +
        ((w.zip xg).map fun wx =>
          ((List.range c.kernel).map fun j =>
            wx.1.getD j 0 * wx.2.getD (t * c.stride + j * c.dilation) 0).sum).sum

/-- `Conv1d` applied per batch element. -/
def conv3 (c : ConvSpec) (p : ConvParams) (x : Tensor3) : Tensor3 :=
  x.map (convBatch c p)

/-- `LeakyReLU(0.2)` pointwise: identity on nonnegatives, slope `1/5` below. -/
def leakyRelu (a : ℚ) : ℚ :=
  if 0 ≤ a then a else a / 5

/-- `LeakyReLU(0.2)` applied to a whole tensor. -/
def lrelu3 (x : Tensor3) : Tensor3 :=
  x.map fun ch => ch.map fun ts => ts.map leakyRelu

/-- Value semantics of one block (`nn.Sequential`): optional reflection pad,
the convolution, then the optional activation. -/
def blockV (bl : BlockSpec) (p : ConvParams) (x : Tensor3) : Tensor3 :=
  let x1 := match bl.pad with
    | some n => reflectPad3 n x
    | none => x
  let y := conv3 bl.conv p x1
  if bl.act then lrelu3 y else y

/-- `forward` of a discriminator: `embeddings = [input]`, then feed each block
the previous entry and append its output. -/
def discForward : List (BlockSpec × ConvParams) → Tensor3 → List Tensor3
  | [], x => [x]
  | bp :: rest, x => x :: discForward rest (blockV bp.1 bp.2 x)

/-- `DiscriminatorEBEN.forward` with the given per-block effective weights. -/
def bandForward (q dilation : Nat) (ps : List ConvParams) (x : Tensor3) : List Tensor3 :=
  discForward ((bandBlocks q dilation).zip ps) x

/-- `DiscriminatorMelGAN.forward` with the given per-block effective weights. -/
def melganForward (ps : List ConvParams) (x : Tensor3) : List Tensor3 :=
  discForward (melganBlocks.zip ps) x

/-- The whole module state of `DiscriminatorMultiScales`: the stored band
count `q` and the weights of its four sub-discriminators. This is the only
state `forward` can read. -/
structure EnsembleParams where
  q : Nat
  band1 : List ConvParams
  band2 : List ConvParams
  band3 : List ConvParams
  melgan : List ConvParams
deriving DecidableEq

/-- `DiscriminatorMultiScales.forward`: the three band discriminators
(dilation 1, 2, 3) evaluate `bands`, the MelGAN discriminator evaluates
`audio`. The call returns the embeddings together with the module state as it
stands after the call (`forward` only reads weights, so it is unchanged). -/
def ensembleForward (m : EnsembleParams) (bands audio : Tensor3) :
    List (List Tensor3) × EnsembleParams :=
  ([bandForward m.q 1 m.band1 bands,
    bandForward m.q 2 m.band2 bands,
    bandForward m.q 3 m.band3 bands,
    melganForward m.melgan audio], m)

/-! ### Store-based semantics making the in-place activations explicit

PyTorch tensors are heap buffers; `LeakyReLU(inplace=True)` overwrites the
buffer it is given. The store model keeps a list of buffers. A reflection pad
or a convolution allocates a fresh buffer; the in-place activation overwrites
(via `List.set`) the buffer the convolution just produced. -/

/-- One block on the store: read buffer `i`, allocate the convolution output
as a fresh buffer, then (when the block has an activation) overwrite that
fresh buffer in place. Returns the store and the output buffer's index. -/
def blockSt (bl : BlockSpec) (p : ConvParams) (s : List Tensor3) (i : Nat) :
    List Tensor3 × Nat :=
  let x := s.getD i []
  let x1 := match bl.pad with
    | some n => reflectPad3 n x
    | none => x
  let y := conv3 bl.conv p x1
  if bl.act then ((s ++ [y]).set s.length (lrelu3 y), s.length)
  else (s ++ [y], s.length)

/-- A discriminator `forward` on the store: starting from buffer `i` (the
input), run the blocks in order, collecting the buffer indices of the
embedding sequence (input index first). -/
def discSt : List (BlockSpec × ConvParams) → List Tensor3 → Nat →
    List Tensor3 × List Nat
  | [], s, i => (s, [i])
  | bp :: rest, s, i =>
    let r := blockSt bp.1 bp.2 s i
    let r2 := discSt rest r.1 r.2
    (r2.1, i :: r2.2)

/-- `DiscriminatorMultiScales.forward` on a store initially holding the
caller's `bands` (buffer 0) and `audio` (buffer 1): the three band
discriminators read buffer 0 and the MelGAN discriminator reads buffer 1,
sequentially threading the store. -/
def ensembleSt (m : EnsembleParams) (bands audio : Tensor3) :
    List Tensor3 × List (List Nat) :=
  let s0 := [bands, audio]
  let r1 := discSt ((bandBlocks m.q 1).zip m.band1) s0 0
  let r2 := discSt ((bandBlocks m.q 2).zip m.band2) r1.1 0
  let r3 := discSt ((bandBlocks m.q 3).zip m.band3) r2.1 0
  let r4 := discSt (melganBlocks.zip m.melgan) r3.1 1
  (r4.1, [r1.2, r2.2, r3.2, r4.2])

/-! ### Helper lemmas -/

/-- The first element of a forward embedding sequence is the input tensor. -/
theorem discForward_head (l : List (BlockSpec × ConvParams)) (x : Tensor3) :
    (discForward l x).head? = some x := by
  cases l <;> rfl

/-- Overwriting the freshly appended buffer rewrites only that buffer. -/
theorem set_length_append (s : List Tensor3) (y v : Tensor3) :
    (s ++ [y]).set s.length v = s ++ [v] := by
  induction s with
  | nil => rfl
  | cons a t ih => simp [ih]

/-- One block appends exactly one buffer, holding the block's output value:
the in-place activation only ever touches the fresh buffer. -/
theorem blockSt_store (bl : BlockSpec) (p : ConvParams) (s : List Tensor3) (i : Nat) :
    (blockSt bl p s i).1 = s ++ [blockV bl p (s.getD i [])] := by
  unfold blockSt blockV
  by_cases h : bl.act = true <;> simp [h, set_length_append]

/-- A whole discriminator pass only appends to the store. -/
theorem discSt_store (l : List (BlockSpec × ConvParams)) (s : List Tensor3) (i : Nat) :
    ∃ t, (discSt l s i).1 = s ++ t := by
  induction l generalizing s i with
  | nil => exact ⟨[], by simp [discSt]⟩
  | cons bp rest ih =>
    obtain ⟨t, ht⟩ := ih (blockSt bp.1 bp.2 s i).1 (blockSt bp.1 bp.2 s i).2
    refine ⟨blockV bp.1 bp.2 (s.getD i []) :: t, ?_⟩
    rw [blockSt_store] at ht
    simp only [discSt, blockSt_store]
    simpa using ht

/-- The first buffer index recorded by a store-level pass is the input's. -/
theorem discSt_head (l : List (BlockSpec × ConvParams)) (s : List Tensor3) (i : Nat) :
    (discSt l s i).2.head? = some i := by
  cases l <;> rfl

/-- `DiscriminatorEBEN` constructs exactly when `q` divides every grouped
channel count of its stack (all such counts are multiples of 80, and `q ∣ q`
is automatic, so the condition reduces to these six divisibilities). -/
theorem bandConstructs_iff (q d : Nat) :
    bandConstructs q d = true ↔
      (q ∣ 80 ∧ q ∣ 160 ∧ q ∣ 320 ∧ q ∣ 480 ∧ q ∣ 640 ∧ q ∣ 960) := by
  rcases Nat.eq_zero_or_pos q with hq | hq
  · subst hq
    simp [bandConstructs, bandBlocks, convConstructs]
  · simp [bandConstructs, bandBlocks, convConstructs, hq, Nat.dvd_iff_mod_eq_zero]
    tauto

/-! ### Claim theorems -/

/-- C1 (counterexample): at the valid input shape (2, 4, 1024), the band
discriminators with dilation 1 and dilation 2 return embedding sequences
with different tensor shapes, refuting shape invariance under dilation. -/
theorem band_dilation_shape_mismatch :
    bandOk 4 1 ⟨2, 4, 1024⟩ = true ∧ bandOk 4 2 ⟨2, 4, 1024⟩ = true ∧
    bandShapes 4 1 ⟨2, 4, 1024⟩ ≠ bandShapes 4 2 ⟨2, 4, 1024⟩ := by
  decide

/-- C1 (amended): varying only the dilation among the band discriminators
never changes any tensor's batch or channel dimension, nor the number of
tensors in the embedding sequence; only temporal lengths can change. -/
theorem band_dilation_preserves_batch_channels (q d1 d2 : Nat) (sh : Shape) :
    (bandShapes q d1 sh).map Shape.channels = (bandShapes q d2 sh).map Shape.channels ∧
    (bandShapes q d1 sh).map Shape.batch = (bandShapes q d2 sh).map Shape.batch ∧
    (bandShapes q d1 sh).length = (bandShapes q d2 sh).length :=
  ⟨rfl, rfl, rfl⟩

/-- C2 (counterexample): in the end-to-end scenario (batch 2, q = 4, bands
length 1024, audio length 4096), none of the three band discriminator
sequences ends in a tensor of shape (2, 1, 32). -/
theorem ensemble_scenario_band_final_not_32 :
    ((ensembleShapes 4 ⟨2, 4, 1024⟩ ⟨2, 1, 4096⟩).getD 0 []).getLast? ≠ some ⟨2, 1, 32⟩ ∧
    ((ensembleShapes 4 ⟨2, 4, 1024⟩ ⟨2, 1, 4096⟩).getD 1 []).getLast? ≠ some ⟨2, 1, 32⟩ ∧
    ((ensembleShapes 4 ⟨2, 4, 1024⟩ ⟨2, 1, 4096⟩).getD 2 []).getLast? ≠ some ⟨2, 1, 32⟩ := by
  decide

/-- C2 (amended): in the end-to-end scenario (batch 2, q = 4, bands length
1024, audio length 4096, all four passes valid), the ensemble returns a
4-element list; elements 0-2 are 9-tensor sequences whose final tensors are
shaped (2, 1, 33), (2, 1, 23) and (2, 1, 13) for dilation 1, 2 and 3
respectively; element 3 is an 8-tensor sequence ending in (2, 1, 16). -/
theorem ensemble_scenario_shapes :
    bandOk 4 1 ⟨2, 4, 1024⟩ = true ∧ bandOk 4 2 ⟨2, 4, 1024⟩ = true ∧
    bandOk 4 3 ⟨2, 4, 1024⟩ = true ∧ melganOk ⟨2, 1, 4096⟩ = true ∧
    (ensembleShapes 4 ⟨2, 4, 1024⟩ ⟨2, 1, 4096⟩).length = 4 ∧
    ((ensembleShapes 4 ⟨2, 4, 1024⟩ ⟨2, 1, 4096⟩).getD 0 []).length = 9 ∧
    ((ensembleShapes 4 ⟨2, 4, 1024⟩ ⟨2, 1, 4096⟩).getD 1 []).length = 9 ∧
    ((ensembleShapes 4 ⟨2, 4, 1024⟩ ⟨2, 1, 4096⟩).getD 2 []).length = 9 ∧
    ((ensembleShapes 4 ⟨2, 4, 1024⟩ ⟨2, 1, 4096⟩).getD 3 []).length = 8 ∧
    ((ensembleShapes 4 ⟨2, 4, 1024⟩ ⟨2, 1, 4096⟩).getD 0 []).getLast? = some ⟨2, 1, 33⟩ ∧
    ((ensembleShapes 4 ⟨2, 4, 1024⟩ ⟨2, 1, 4096⟩).getD 1 []).getLast? = some ⟨2, 1, 23⟩ ∧
    ((ensembleShapes 4 ⟨2, 4, 1024⟩ ⟨2, 1, 4096⟩).getD 2 []).getLast? = some ⟨2, 1, 13⟩ ∧
    ((ensembleShapes 4 ⟨2, 4, 1024⟩ ⟨2, 1, 4096⟩).getD 3 []).getLast? = some ⟨2, 1, 16⟩ := by
  decide

/-- C3 (counterexample): at the valid band input (2, 4, 1024) with dilation
1, the final tensor's temporal length is 33, not ceil(1024 / 32) = 32: the
initial reflect-pad-plus-conv block lengthens the signal by 2 before the
five stride-2 blocks. -/
theorem band_final_length_not_ceil_div_32 :
    bandOk 4 1 ⟨2, 4, 1024⟩ = true ∧
    (bandShapes 4 1 ⟨2, 4, 1024⟩).getLast? = some ⟨2, 1, 33⟩ ∧
    (bandShapes 4 1 ⟨2, 4, 1024⟩).getLast? ≠ some ⟨2, 1, (1024 + 31) / 32⟩ := by
  decide

/-- C3 (amended): for every valid input, the dilation-1 band discriminator's
final tensor has temporal length ceil((L + 2) / 32) (the first block adds 2
samples, then five stride-2 blocks each act as a ceiling halving), and the
full-band discriminator's final tensor has temporal length
ceil(L / 256) (four stride-4 blocks, the other blocks length-preserving). -/
theorem final_temporal_lengths (q b L b2 L2 : Nat)
    (h1 : bandOk q 1 ⟨b, q, L⟩ = true) (h2 : melganOk ⟨b2, 1, L2⟩ = true) :
    (bandShapes q 1 ⟨b, q, L⟩).getLast? = some ⟨b, 1, (L + 2 + 31) / 32⟩ ∧
    (melganShapes ⟨b2, 1, L2⟩).getLast? = some ⟨b2, 1, (L2 + 255) / 256⟩ := by
  simp [melganOk, forwardOk, blockOk, melganBlocks, padLen] at h2
  have h7 : 7 < L2 := h2.1.1
  constructor
  · simp [bandShapes, bandBlocks, forwardShapes, blockOut, convOutLen, padLen]
    omega
  · simp [melganShapes, melganBlocks, forwardShapes, blockOut, convOutLen, padLen]
    omega

/-- Witness for `final_temporal_lengths` at q = 4, bands (1, 4, 64), audio
(1, 1, 64): both validity hypotheses hold and the final lengths are
ceil(66 / 32) = 3 and ceil(64 / 256) = 1. -/
theorem final_temporal_lengths_witness :
    bandOk 4 1 ⟨1, 4, 64⟩ = true ∧ melganOk ⟨1, 1, 64⟩ = true ∧
    ((bandShapes 4 1 ⟨1, 4, 64⟩).getLast? = some ⟨1, 1, (64 + 2 + 31) / 32⟩ ∧
     (melganShapes ⟨1, 1, 64⟩).getLast? = some ⟨1, 1, (64 + 255) / 256⟩) :=
  ⟨by decide, by decide, final_temporal_lengths 4 1 64 1 64 (by decide) (by decide)⟩

/-- C4: for every valid input, the band discriminator returns exactly 9
tensors (the input first, then the 8 block outputs) and the full-band
discriminator returns exactly 8 tensors (the input first, then the 7 block
outputs). -/
theorem evaluate_sequence_lengths (q d : Nat) (bsh ash : Shape)
    (h1 : bandOk q d bsh = true) (h2 : melganOk ash = true) :
    (bandShapes q d bsh).length = 9 ∧ (bandShapes q d bsh).head? = some bsh ∧
    (melganShapes ash).length = 8 ∧ (melganShapes ash).head? = some ash :=
  ⟨rfl, rfl, rfl, rfl⟩

/-- Witness for `evaluate_sequence_lengths` at q = 4, dilation 1, bands
(1, 4, 64), audio (1, 1, 64). -/
theorem evaluate_sequence_lengths_witness :
    bandOk 4 1 ⟨1, 4, 64⟩ = true ∧ melganOk ⟨1, 1, 64⟩ = true ∧
    ((bandShapes 4 1 ⟨1, 4, 64⟩).length = 9 ∧
     (bandShapes 4 1 ⟨1, 4, 64⟩).head? = some ⟨1, 4, 64⟩ ∧
     (melganShapes ⟨1, 1, 64⟩).length = 8 ∧
     (melganShapes ⟨1, 1, 64⟩).head? = some ⟨1, 1, 64⟩) :=
  ⟨by decide, by decide, evaluate_sequence_lengths 4 1 ⟨1, 4, 64⟩ ⟨1, 1, 64⟩ (by decide) (by decide)⟩

/-- C5: `DiscriminatorMultiScales.forward` returns the four embedding
sequences in the fixed order band-dilation-1, band-dilation-2,
band-dilation-3, full-band; the three band discriminators all receive the
same `bands` tensor and the full-band discriminator receives `audio` (each
sequence starts with its own input). -/
theorem ensemble_order_fixed (m : EnsembleParams) (bands audio : Tensor3) :
    (ensembleForward m bands audio).1 =
      [bandForward m.q 1 m.band1 bands, bandForward m.q 2 m.band2 bands,
       bandForward m.q 3 m.band3 bands, melganForward m.melgan audio] ∧
    (ensembleForward m bands audio).1.length = 4 ∧
    (ensembleForward m bands audio).1.map List.head? =
      [some bands, some bands, some bands, some audio] := by
  refine ⟨rfl, rfl, ?_⟩
  simp [ensembleForward, bandForward, melganForward, discForward_head]

/-- C6: for every valid input, the channel counts of the band
discriminator's embedding sequence are q, 80, 160, 320, 480, 640, 960, 960,
1 in order, and those of the full-band discriminator are 1, 16, 64, 256,
1024, 1024, 1024, 1; in particular both final tensors have one channel. -/
theorem evaluate_channel_counts (q d : Nat) (bsh ash : Shape)
    (h1 : bandOk q d bsh = true) (h2 : melganOk ash = true) :
    (bandShapes q d bsh).map Shape.channels = [q, 80, 160, 320, 480, 640, 960, 960, 1] ∧
    (melganShapes ash).map Shape.channels = [1, 16, 64, 256, 1024, 1024, 1024, 1] ∧
    ((bandShapes q d bsh).getLast?).map Shape.channels = some 1 ∧
    ((melganShapes ash).getLast?).map Shape.channels = some 1 := by
  simp [bandOk, forwardOk, blockOk, bandBlocks] at h1
  simp [melganOk, forwardOk, blockOk, melganBlocks] at h2
  refine ⟨?_, ?_, ?_, ?_⟩
  · simp [bandShapes, bandBlocks, forwardShapes, blockOut]
    omega
  · simp [melganShapes, melganBlocks, forwardShapes, blockOut]
    omega
  · simp [bandShapes, bandBlocks, forwardShapes, blockOut]
  · simp [melganShapes, melganBlocks, forwardShapes, blockOut]

/-- Witness for `evaluate_channel_counts` at q = 4, dilation 1, bands
(1, 4, 64), audio (1, 1, 64). -/
theorem evaluate_channel_counts_witness :
    bandOk 4 1 ⟨1, 4, 64⟩ = true ∧ melganOk ⟨1, 1, 64⟩ = true ∧
    ((bandShapes 4 1 ⟨1, 4, 64⟩).map Shape.channels =
       [4, 80, 160, 320, 480, 640, 960, 960, 1] ∧
     (melganShapes ⟨1, 1, 64⟩).map Shape.channels =
       [1, 16, 64, 256, 1024, 1024, 1024, 1] ∧
     ((bandShapes 4 1 ⟨1, 4, 64⟩).getLast?).map Shape.channels = some 1 ∧
     ((melganShapes ⟨1, 1, 64⟩).getLast?).map Shape.channels = some 1) :=
  ⟨by decide, by decide, evaluate_channel_counts 4 1 ⟨1, 4, 64⟩ ⟨1, 1, 64⟩ (by decide) (by decide)⟩

/-- C7: a band discriminator (at each of the dilations 1, 2, 3 the ensemble
uses), and hence the ensemble, constructs exactly when q divides the
declared grouped-convolution channel counts 80, 160, 320, 480, 640 and 960;
otherwise `nn.Conv1d.__init__` raises at construction time. -/
theorem construction_iff_q_divides (q : Nat) :
    (bandConstructs q 1 = true ↔
      (q ∣ 80 ∧ q ∣ 160 ∧ q ∣ 320 ∧ q ∣ 480 ∧ q ∣ 640 ∧ q ∣ 960)) ∧
    (bandConstructs q 2 = true ↔
      (q ∣ 80 ∧ q ∣ 160 ∧ q ∣ 320 ∧ q ∣ 480 ∧ q ∣ 640 ∧ q ∣ 960)) ∧
    (bandConstructs q 3 = true ↔
      (q ∣ 80 ∧ q ∣ 160 ∧ q ∣ 320 ∧ q ∣ 480 ∧ q ∣ 640 ∧ q ∣ 960)) ∧
    (ensembleConstructs q = true ↔
      (q ∣ 80 ∧ q ∣ 160 ∧ q ∣ 320 ∧ q ∣ 480 ∧ q ∣ 640 ∧ q ∣ 960)) := by
  have hm : melganConstructs = true := by decide
  refine ⟨bandConstructs_iff q 1, bandConstructs_iff q 2, bandConstructs_iff q 3, ?_⟩
  have h1 := bandConstructs_iff q 1
  have h2 := bandConstructs_iff q 2
  have h3 := bandConstructs_iff q 3
  simp only [ensembleConstructs, Bool.and_eq_true, hm, and_true]
  tauto

/-- C8: `forward` only reads the module's weights: the state after a call is
the state before it, and a second call on that state with the same inputs
returns a bit-identical embedding list (determinism, no hidden state). -/
theorem evaluate_deterministic (m : EnsembleParams) (bands audio : Tensor3) :
    (ensembleForward m bands audio).2 = m ∧
    (ensembleForward (ensembleForward m bands audio).2 bands audio).1 =
      (ensembleForward m bands audio).1 :=
  ⟨rfl, rfl⟩

/-- C9: for each dilation d in {1, 2, 3} and any input of temporal length
L ≥ 3, the first band block (reflect-pad 1, then conv kernel 3, stride 1,
padding 1, dilation d) yields the sequence's second tensor with temporal
length L + 4 - 2d and 80 channels; with the default dilation 1 it is 2
samples longer than the input. -/
theorem band_first_block_length (q d b L : Nat)
    (hd : d = 1 ∨ d = 2 ∨ d = 3) (hL : 3 ≤ L) :
    (bandShapes q d ⟨b, q, L⟩).get? 1 = some ⟨b, 80, L + 4 - 2 * d⟩ ∧
    (d = 1 → (bandShapes q d ⟨b, q, L⟩).get? 1 = some ⟨b, 80, L + 2⟩) := by
  have h : (bandShapes q d ⟨b, q, L⟩).get? 1 = some ⟨b, 80, L + 4 - 2 * d⟩ := by
    simp [bandShapes, bandBlocks, forwardShapes, blockOut, convOutLen, padLen]
    omega
  exact ⟨h, fun h1 => by rw [h]; simp [h1]⟩

/-- Witness for `band_first_block_length` at q = 4, dilation 3, input
(1, 4, 8): the second tensor has shape (1, 80, 6) = (1, 80, 8 + 4 - 6). -/
theorem band_first_block_length_witness :
    (3 = 1 ∨ 3 = 2 ∨ 3 = 3) ∧ 3 ≤ 8 ∧
    ((bandShapes 4 3 ⟨1, 4, 8⟩).get? 1 = some ⟨1, 80, 8 + 4 - 2 * 3⟩ ∧
     (3 = 1 → (bandShapes 4 3 ⟨1, 4, 8⟩).get? 1 = some ⟨1, 80, 8 + 2⟩)) :=
  ⟨by decide, by decide, band_first_block_length 4 3 1 8 (by decide) (by decide)⟩

/-- C10: evaluation leaves the caller's tensors intact: running the whole
ensemble on a store whose buffers 0 and 1 hold `bands` and `audio`, every
in-place activation touches only buffers freshly allocated by a pad or
convolution, so buffers 0 and 1 still hold the original values afterwards,
and element 0 of each returned embedding sequence is the respective input
buffer. -/
theorem evaluate_preserves_inputs (m : EnsembleParams) (bands audio : Tensor3) :
    ((ensembleSt m bands audio).1)[0]? = some bands ∧
    ((ensembleSt m bands audio).1)[1]? = some audio ∧
    ((ensembleSt m bands audio).2).map List.head? = [some 0, some 0, some 0, some 1] := by
  obtain ⟨t1, h1⟩ := discSt_store ((bandBlocks m.q 1).zip m.band1) [bands, audio] 0
  obtain ⟨t2, h2⟩ := discSt_store ((bandBlocks m.q 2).zip m.band2)
    (discSt ((bandBlocks m.q 1).zip m.band1) [bands, audio] 0).1 0
  obtain ⟨t3, h3⟩ := discSt_store ((bandBlocks m.q 3).zip m.band3)
    (discSt ((bandBlocks m.q 2).zip m.band2)
      (discSt ((bandBlocks m.q 1).zip m.band1) [bands, audio] 0).1 0).1 0
  obtain ⟨t4, h4⟩ := discSt_store (melganBlocks.zip m.melgan)
    (discSt ((bandBlocks m.q 3).zip m.band3)
      (discSt ((bandBlocks m.q 2).zip m.band2)
        (discSt ((bandBlocks m.q 1).zip m.band1) [bands, audio] 0).1 0).1 0).1 1
  refine ⟨?_, ?_, ?_⟩
  · simp only [ensembleSt]
    rw [h4, h3, h2, h1]
    simp
  · simp only [ensembleSt]
    rw [h4, h3, h2, h1]
    simp
  · simp [ensembleSt, discSt_head]
